import Mathlib

/-!
Verification model of the appointment booking / check-in core of the
Whatsapp-backend repository.  The backend engine (FastAPI `app/` tree) is
documented in the repository (README business rules, implementation summary,
WebSocket guide) but its Python source is not shipped; those operations are
modelled from the specification.  The frontend WebSocket hook and the
optimistic check-in card are shipped as TypeScript and are embedded from
their source (`src/frontend/src/hooks/useWebSocket.ts`,
`src/frontend/src/components/AppointmentCard.tsx`).

Ids, dates and idempotency keys are abstracted as naturals; only equality on
them is ever used by the code.
-/

namespace ClinicCore

/-- Appointment lifecycle status (data model: booked, checked_in, cancelled, completed). -/
inductive AppointmentStatus
  | booked
  | checked_in
  | cancelled
  | completed
deriving DecidableEq

/-- Queue entry status (waiting, served, skipped). -/
inductive QueueStatus
  | waiting
  | served
  | skipped
deriving DecidableEq

/-- An appointment row: identity, refs, date, assigned slot, status, optional idempotency key. -/
structure Appointment where
  id : Nat
  patient_id : Nat
  doctor_id : Nat
  date : Nat
  slot : Nat
  status : AppointmentStatus
  idempotency_key : Option Nat
deriving DecidableEq

/-- Per-(doctor, date) capacity row: fixed daily capacity and remaining slots. -/
structure CapacityLedger where
  capacity : Nat
  remaining : Nat
deriving DecidableEq

/-- Doctor daily availability record. -/
structure Availability where
  doctor_id : Nat
  date : Nat
  is_present : Bool
deriving DecidableEq

/-- A check-in queue entry: appointment ref, doctor, date, 1-based position, status. -/
structure QueueEntry where
  appointment_id : Nat
  doctor_id : Nat
  date : Nat
  position : Nat
  status : QueueStatus
deriving DecidableEq

/-- The persisted state the engines operate on: availability records, the
per-(doctor, date) capacity rows, the appointment rows, the queue entries,
and a fresh-id counter.  `defaultCapacity` is the configured
`MAX_APPOINTMENTS_PER_DOCTOR_PER_DAY` used when a capacity row is created
lazily on first booking. -/
structure SystemState where
  defaultCapacity : Nat
  availabilities : List Availability
  capacities : List ((Nat × Nat) × CapacityLedger)
  appointments : List Appointment
  queueEntries : List QueueEntry
  nextId : Nat
deriving DecidableEq

/-- Result of `CapacityLedger.tryReserve`. -/
inductive ReserveResult
  | ok (slot : Nat) (ledger : CapacityLedger)
  | capacityExhausted
deriving DecidableEq

/-- Modelled from the spec: the backend `appointment_repo` atomic decrement
(`UPDATE doctor_daily_capacities SET remaining = remaining - 1 WHERE ... remaining > 0
RETURNING capacity, remaining`), with the slot computed as `capacity - remaining`
from the post-decrement `remaining` (implementation summary: slot calculated as
capacity - remaining, range 1..10).  The Python repository layer itself is not in
the shipped sources. -/
def CapacityLedger.tryReserve (l : CapacityLedger) : ReserveResult :=
  if 0 < l.remaining then
    ReserveResult.ok (l.capacity - (l.remaining - 1)) { l with remaining := l.remaining - 1 }
  else
    ReserveResult.capacityExhausted

/-- Lookup of the availability record for a (doctor, date). -/
def findAvailability (avs : List Availability) (d t : Nat) : Option Availability :=
  avs.find? (fun a => a.doctor_id == d && a.date == t)

/-- Modelled from the spec: default-allow availability policy — an explicit
record decides, absence of a record means available. -/
def availableFor (avs : List Availability) (d t : Nat) : Bool :=
  match findAvailability avs d t with
  | some av => av.is_present
  | none => true

/-- Lookup of the capacity row for a (doctor, date); created lazily with
`remaining = capacity = defaultCapacity` on first booking attempt. -/
def getLedger (s : SystemState) (d t : Nat) : CapacityLedger :=
  match s.capacities.find? (fun p => p.1.1 == d && p.1.2 == t) with
  | some p => p.2
  | none => { capacity := s.defaultCapacity, remaining := s.defaultCapacity }

/-- Upsert of the capacity row for a (doctor, date): the existing row is
replaced in place, or a new row is inserted. -/
def setLedger : List ((Nat × Nat) × CapacityLedger) → Nat → Nat → CapacityLedger →
    List ((Nat × Nat) × CapacityLedger)
  | [], d, t, l => [((d, t), l)]
  | p :: rest, d, t, l =>
      if p.1.1 = d ∧ p.1.2 = t then (p.1, l) :: rest
      else p :: setLedger rest d t l

/-- Booking errors surfaced to the caller (spec 4.2: availability violation,
and `CapacityFull` as the surface form of the ledger's `CapacityExhausted`). -/
inductive BookError
  | DoctorUnavailable
  | CapacityFull
deriving DecidableEq

/-- Modelled from the spec: the fresh-booking path of the BookingEngine
(steps 2-4 of spec 4.2): availability check with default-allow, atomic
`tryReserve`, then persistence of the new `booked` appointment together with
the decremented ledger (one transaction). -/
def bookFresh (s : SystemState) (patientId doctorId date : Nat) (key : Option Nat) :
    (Appointment ⊕ BookError) × SystemState :=
  if availableFor s.availabilities doctorId date then
    match (getLedger s doctorId date).tryReserve with
    | ReserveResult.ok slot ledger' =>
        let appt : Appointment :=
          { id := s.nextId, patient_id := patientId, doctor_id := doctorId, date := date,
            slot := slot, status := AppointmentStatus.booked, idempotency_key := key }
        (Sum.inl appt,
          { s with
              capacities := setLedger s.capacities doctorId date ledger',
              appointments := s.appointments ++ [appt],
              nextId := s.nextId + 1 })
    | ReserveResult.capacityExhausted => (Sum.inr BookError.CapacityFull, s)
  else
    (Sum.inr BookError.DoctorUnavailable, s)

/-- Modelled from the spec: `book(patientId, doctorId, date, idempotencyKey?)`.
Step 1 is the global idempotency-key lookup — an existing appointment with the
same key is returned unchanged and no capacity is consumed; otherwise the
fresh-booking path runs. -/
def book (s : SystemState) (patientId doctorId date : Nat) (key : Option Nat) :
    (Appointment ⊕ BookError) × SystemState :=
  match key with
  | some k =>
      match s.appointments.find? (fun a => a.idempotency_key == some k) with
      | some a => (Sum.inl a, s)
      | none => bookFresh s patientId doctorId date (some k)
  | none => bookFresh s patientId doctorId date none

/-- Check-in errors (spec 4.4). -/
inductive CheckInError
  | NotFound
  | PatientMismatch
  | WrongDate
  | AlreadyCheckedIn
deriving DecidableEq

/-- Largest assigned queue position for a (doctor, date); 0 when the queue is empty. -/
def maxPosition (qs : List QueueEntry) (d t : Nat) : Nat :=
  (qs.filter (fun q => q.doctor_id == d && q.date == t)).foldr (fun q m => max q.position m) 0

/-- Modelled from the spec: the QueueLedger position assignment, documented as
atomic `MAX(position) + 1` per (doctor, date). -/
def QueueLedger.append (qs : List QueueEntry) (d t : Nat) : Nat :=
  maxPosition qs d t + 1

/-- Modelled from the spec: `checkIn(appointmentId, patientId)` at the current
date `today` (spec 4.4): load and validate the appointment (NotFound,
PatientMismatch, WrongDate, AlreadyCheckedIn in that order), then atomically
append the queue entry with the next position and flip the appointment status
to `checked_in`. -/
def checkIn (s : SystemState) (appointmentId patientId today : Nat) :
    (QueueEntry ⊕ CheckInError) × SystemState :=
  match s.appointments.find? (fun a => a.id == appointmentId) with
  | none => (Sum.inr CheckInError.NotFound, s)
  | some a =>
      if a.patient_id ≠ patientId then
        (Sum.inr CheckInError.PatientMismatch, s)
      else if today ≠ a.date then
        (Sum.inr CheckInError.WrongDate, s)
      else if a.status = AppointmentStatus.checked_in
          ∨ s.queueEntries.any (fun q => q.appointment_id == a.id) = true then
        (Sum.inr CheckInError.AlreadyCheckedIn, s)
      else
        let pos := QueueLedger.append s.queueEntries a.doctor_id a.date
        let entry : QueueEntry :=
          { appointment_id := a.id, doctor_id := a.doctor_id, date := a.date,
            position := pos, status := QueueStatus.waiting }
        (Sum.inl entry,
          { s with
              queueEntries := s.queueEntries ++ [entry],
              appointments := s.appointments.map
                (fun b => if b.id = a.id then { b with status := AppointmentStatus.checked_in } else b) })

/-- The empty initial state with a configured daily capacity. -/
def initState (cap : Nat) : SystemState :=
  { defaultCapacity := cap, availabilities := [], capacities := [],
    appointments := [], queueEntries := [], nextId := 0 }

/-- Sequential run of `book` calls, one per patient id, all targeting the same
(doctor, date) and carrying no idempotency key.  Because each `book` is one
atomic transaction, every concurrent execution of such calls is equivalent to
this run for some order of the patient list. -/
def bookAll (s : SystemState) (doctorId date : Nat) : List Nat → List (Appointment ⊕ BookError) × SystemState
  | [] => ([], s)
  | p :: rest =>
      let step := book s p doctorId date none
      let next := bookAll step.2 doctorId date rest
      (step.1 :: next.1, next.2)

/-- Sequential run of `checkIn` calls, one per (appointmentId, patientId) pair. -/
def checkInAll (s : SystemState) (today : Nat) : List (Nat × Nat) → List (QueueEntry ⊕ CheckInError) × SystemState
  | [] => ([], s)
  | c :: rest =>
      let step := checkIn s c.1 c.2 today
      let next := checkInAll step.2 today rest
      (step.1 :: next.1, next.2)

/-- Slots of the successful results of a run of bookings, in result order. -/
def successSlots (rs : List (Appointment ⊕ BookError)) : List Nat :=
  rs.filterMap (fun r => match r with | Sum.inl a => some a.slot | Sum.inr _ => none)

/-- Errors of the failed results of a run of bookings, in result order. -/
def failuresOf (rs : List (Appointment ⊕ BookError)) : List BookError :=
  rs.filterMap (fun r => match r with | Sum.inl _ => none | Sum.inr e => some e)

/-- Number of appointments for a (doctor, date) whose status is not cancelled. -/
def nonCancelledCount (s : SystemState) (d t : Nat) : Nat :=
  (s.appointments.filter
    (fun a => a.doctor_id == d && a.date == t && !(decide (a.status = AppointmentStatus.cancelled)))).length

/-! ### ChangeBus / SubscriptionRegistry

Modelled from the spec (section 4.5): date-scoped subscriptions, at most one
date per connection (resubscribe replaces), an immediate full snapshot on
subscribe, and a fresh snapshot pushed as an `update` to every subscriber of
the date on each publish.  `version d` counts the publishes for date `d`, so a
message carrying `version d` reflects the current state of `d` at the moment
it was generated. -/

/-- An outbound push message: a snapshot or an update for a date, carrying the
state version it was computed from. -/
inductive WsMsg
  | snapshot (date : Nat) (version : Nat)
  | update (date : Nat) (version : Nat)
deriving DecidableEq

/-- Events on the broadcast layer: a connection subscribes to a date, a
connection unsubscribes, or an engine publishes a change for a date. -/
inductive WsEvent
  | subscribe (conn : Nat) (date : Nat)
  | unsubscribe (conn : Nat)
  | publish (date : Nat)
deriving DecidableEq

/-- Broadcast-layer state: the registry (connection ↦ subscribed date, at most
one entry per connection), the per-date state version, and the per-connection
outbox of delivered messages in delivery order. -/
structure BusState where
  registry : List (Nat × Nat)
  version : Nat → Nat
  outbox : Nat → List WsMsg

/-- Modelled from the spec: one step of the ChangeBus.  `subscribe` replaces
any prior subscription of the connection and immediately delivers a snapshot
at the current version; `publish` bumps the date's version and delivers an
update to every connection subscribed to that date. -/
def busStep (s : BusState) : WsEvent → BusState
  | WsEvent.subscribe c d =>
      { registry := (c, d) :: s.registry.filter (fun p => p.1 ≠ c),
        version := s.version,
        outbox := fun c' =>
          if c' = c then s.outbox c ++ [WsMsg.snapshot d (s.version d)] else s.outbox c' }
  | WsEvent.unsubscribe c =>
      { s with registry := s.registry.filter (fun p => p.1 ≠ c) }
  | WsEvent.publish d =>
      let v := fun d' => if d' = d then s.version d + 1 else s.version d'
      { registry := s.registry,
        version := v,
        outbox := fun c' =>
          if (c', d) ∈ s.registry then s.outbox c' ++ [WsMsg.update d (v d)] else s.outbox c' }

/-- Run of the broadcast layer over a list of events. -/
def busRun (s : BusState) (es : List WsEvent) : BusState :=
  es.foldl busStep s

/-- The initial broadcast state: no subscriptions, version 0 everywhere, empty outboxes. -/
def initBus : BusState :=
  { registry := [], version := fun _ => 0, outbox := fun _ => [] }

/-! ### Frontend: optimistic check-in (AppointmentCard.tsx)

`handleCheckIn` guards on the rendered status being `booked`, optimistically
sets the displayed status to `checked_in`, calls the API, and on a thrown
error rolls the displayed status back to `appointment.status` (the original
prop). -/

/-- The displayed (optimistic) status of the card after `handleCheckIn`
settles, given the appointment's original status and whether the API call
succeeded.  Embedded from `AppointmentCard.tsx` lines 27-45. -/
def handleCheckInStatus (original : AppointmentStatus) (apiSucceeds : Bool) : AppointmentStatus :=
  if original = AppointmentStatus.booked then
    if apiSucceeds then AppointmentStatus.checked_in else original
  else
    original

/-! ### Frontend: WebSocket reconnect logic (useWebSocket.ts)

The hook keeps a reconnect-attempt counter (`reconnectAttemptsRef`, reset to 0
in `ws.onopen`), `maxReconnectAttempts = 5` and `baseDelay = 1000`.  In
`ws.onclose` it sets status `disconnected` and, while the counter is below the
maximum, schedules a reconnect after `baseDelay * 2 ^ attempts` milliseconds;
the timeout callback increments the counter and reconnects (status
`connecting`).  Once the counter has reached the maximum, a close sets status
`error` and schedules nothing. -/

/-- Connection status of the hook. -/
inductive ConnStatus
  | connecting
  | connected
  | disconnected
  | error
deriving DecidableEq

/-- Hook state: the attempt counter, the reported status, whether a socket is
currently open or opening (`wsRef` non-null), and the delay of the pending
reconnect timeout, if one is scheduled. -/
structure HookState where
  attempts : Nat
  status : ConnStatus
  live : Bool
  scheduled : Option Nat
deriving DecidableEq

/-- maxReconnectAttempts in useWebSocket.ts. -/
def maxReconnectAttempts : Nat := 5

/-- baseDelay (milliseconds) in useWebSocket.ts. -/
def baseDelay : Nat := 1000

/-- Events observed by the hook: the socket opens, the socket closes, or a
scheduled reconnect timeout fires. -/
inductive HookEvent
  | opened
  | closed
  | timer
deriving DecidableEq

/-- One step of the hook's reconnect state machine, embedded from
`useWebSocket.ts` (onopen lines 51-63, onclose lines 89-107, the timeout
callback lines 99-102).  Socket events only fire while a socket exists, and a
timer only fires while a timeout is scheduled; other combinations leave the
state untouched. -/
def hookStep (s : HookState) : HookEvent → HookState
  | HookEvent.opened =>
      if s.live then { s with status := ConnStatus.connected, attempts := 0 } else s
  | HookEvent.closed =>
      if s.live then
        if s.attempts < maxReconnectAttempts then
          { attempts := s.attempts, status := ConnStatus.disconnected, live := false,
            scheduled := some (baseDelay * 2 ^ s.attempts) }
        else
          { attempts := s.attempts, status := ConnStatus.error, live := false, scheduled := none }
      else s
  | HookEvent.timer =>
      match s.scheduled with
      | some _ =>
          { attempts := s.attempts + 1, status := ConnStatus.connecting, live := true,
            scheduled := none }
      | none => s

/-- Run of the hook state machine over a list of events. -/
def hookRun (s : HookState) (es : List HookEvent) : HookState :=
  es.foldl hookStep s

/-- Hook state right after the initial `connect()`: no attempts consumed, a
socket opening, nothing scheduled. -/
def initHook : HookState :=
  { attempts := 0, status := ConnStatus.connecting, live := true, scheduled := none }

/-- The delays of the reconnects scheduled while running `es`, in order. -/
def collectDelays : HookState → List HookEvent → List Nat
  | _, [] => []
  | s, e :: es =>
      (if e = HookEvent.closed ∧ s.live = true ∧ s.attempts < maxReconnectAttempts
       then [baseDelay * 2 ^ s.attempts] else [])
        ++ collectDelays (hookStep s e) es

/-! ### Helper lemmas -/

/-- find? over an append whose first part has no hit. -/
lemma find?_append_of_none {α : Type} (p : α → Bool) (l1 l2 : List α)
    (h : l1.find? p = none) : (l1 ++ l2).find? p = l2.find? p := by
  induction l1 with
  | nil => rfl
  | cons x xs ih =>
      rw [List.find?_cons] at h
      rcases hx : p x with _ | _
      · rw [List.cons_append, List.find?_cons, hx]
        exact ih (by rwa [hx] at h)
      · rw [hx] at h
        exact absurd h (by simp)

/-- The upserted capacity row is found by the (doctor, date) lookup and holds
the new ledger. -/
lemma setLedger_find (cs : List ((Nat × Nat) × CapacityLedger)) (d t : Nat) (l : CapacityLedger) :
    ∃ q, (setLedger cs d t l).find? (fun p => p.1.1 == d && p.1.2 == t) = some q ∧ q.2 = l := by
  induction cs with
  | nil =>
      exact ⟨((d, t), l), by simp [setLedger, List.find?], rfl⟩
  | cons p rest ih =>
      by_cases hp : p.1.1 = d ∧ p.1.2 = t
      · refine ⟨(p.1, l), ?_, rfl⟩
        rw [setLedger, if_pos hp, List.find?_cons]
        simp [hp.1, hp.2]
      · obtain ⟨q, hq1, hq2⟩ := ih
        refine ⟨q, ?_, hq2⟩
        rw [setLedger, if_neg hp, List.find?_cons]
        have : (p.1.1 == d && p.1.2 == t) = false := by
          rcases Decidable.not_and_iff_or_not.mp hp with h | h <;> simp [h]
        rw [this]
        exact hq1

/-- Reading back the (doctor, date) ledger after an upsert yields the new ledger. -/
lemma getLedger_setLedger (s' : SystemState) (d t : Nat) (l : CapacityLedger)
    (cs : List ((Nat × Nat) × CapacityLedger))
    (h : s'.capacities = setLedger cs d t l) :
    getLedger s' d t = l := by
  obtain ⟨q, hq1, hq2⟩ := setLedger_find cs d t l
  unfold getLedger
  rw [h, hq1]
  exact hq2

/-! ### C3: slot number formula -/

/-- C3 counterexample: on a fresh ledger of capacity 10, the first successful
`tryReserve` returns slot 1 with 9 remaining after the decrement, but the
claimed formula `capacity - remaining_after_decrement + 1` evaluates to 2
there, so the claim as stated is false. -/
theorem C3_slot_formula_counterexample :
    CapacityLedger.tryReserve { capacity := 10, remaining := 10 } =
      ReserveResult.ok 1 { capacity := 10, remaining := 9 } ∧ (1 : Nat) ≠ 10 - 9 + 1 := by
  decide

/-- C3 (amended): every successful `tryReserve` returns the slot
`capacity - remaining_after_decrement` (equivalently
`capacity - remaining_before_decrement + 1`), which is 1-based and lies in
`1..capacity`; the decrement lowers `remaining` by one and keeps `capacity`. -/
theorem C3_slot_formula (l : CapacityLedger) (s : Nat) (l' : CapacityLedger)
    (hcap : l.remaining ≤ l.capacity)
    (h : l.tryReserve = ReserveResult.ok s l') :
    s = l.capacity - l'.remaining ∧ s = l.capacity - l.remaining + 1 ∧
      1 ≤ s ∧ s ≤ l.capacity ∧ l'.remaining = l.remaining - 1 ∧ l'.capacity = l.capacity := by
  unfold CapacityLedger.tryReserve at h
  split at h
  · rename_i hpos
    injection h with h1 h2
    subst h1
    subst h2
    refine ⟨rfl, ?_, ?_, ?_, rfl, rfl⟩ <;> omega
  · exact absurd h (by simp)

/-- Witness for C3: the amended formula evaluated on a fresh ledger of
capacity 10. -/
theorem C3_slot_formula_witness :
    1 = 10 - 9 ∧ 1 = 10 - 10 + 1 ∧ 1 ≤ 1 ∧ 1 ≤ 10 ∧ 9 = 10 - 1 ∧ 10 = 10 :=
  C3_slot_formula { capacity := 10, remaining := 10 } 1 { capacity := 10, remaining := 9 }
    (by decide) (by decide)

/-! ### C5: duplicate check-in -/

/-- C5: a check-in on an appointment that is already `checked_in`, or for
which a queue entry already exists, fails with `AlreadyCheckedIn` and leaves
the state — in particular the queue — completely unchanged, so no new
QueueEntry is created. -/
theorem C5_duplicate_checkin (s : SystemState) (aid pid : Nat) (a : Appointment)
    (hfind : s.appointments.find? (fun b => b.id == aid) = some a)
    (hpat : a.patient_id = pid)
    (hdup : a.status = AppointmentStatus.checked_in
      ∨ s.queueEntries.any (fun q => q.appointment_id == a.id) = true) :
    checkIn s aid pid a.date = (Sum.inr CheckInError.AlreadyCheckedIn, s) := by
  unfold checkIn
  simp only [hfind]
  rw [if_neg (by simp [hpat]), if_neg (by simp), if_pos hdup]

/-- Witness for C5: a concrete state with one checked-in appointment; the
second check-in fails with `AlreadyCheckedIn` and changes nothing. -/
theorem C5_duplicate_checkin_witness :
    checkIn
        { defaultCapacity := 10, availabilities := [], capacities := [],
          appointments := [{ id := 7, patient_id := 1, doctor_id := 2, date := 3, slot := 1,
                             status := AppointmentStatus.checked_in, idempotency_key := none }],
          queueEntries := [], nextId := 8 } 7 1 3 =
      (Sum.inr CheckInError.AlreadyCheckedIn,
        { defaultCapacity := 10, availabilities := [], capacities := [],
          appointments := [{ id := 7, patient_id := 1, doctor_id := 2, date := 3, slot := 1,
                             status := AppointmentStatus.checked_in, idempotency_key := none }],
          queueEntries := [], nextId := 8 }) :=
  C5_duplicate_checkin _ 7 1
    { id := 7, patient_id := 1, doctor_id := 2, date := 3, slot := 1,
      status := AppointmentStatus.checked_in, idempotency_key := none }
    (by decide) (by decide) (Or.inl (by decide))

/-! ### C6: wrong-date check-in -/

/-- C6: a check-in attempted on a date other than the appointment's own date
fails with `WrongDate` (given the appointment exists and the patient matches,
i.e. the earlier checks of the algorithm pass), and conversely a successful
check-in can only happen on the appointment's own date. -/
theorem C6_wrong_date (s : SystemState) (aid pid today : Nat) :
    (∀ a, s.appointments.find? (fun b => b.id == aid) = some a → a.patient_id = pid →
      today ≠ a.date → checkIn s aid pid today = (Sum.inr CheckInError.WrongDate, s)) ∧
    (∀ e s', checkIn s aid pid today = (Sum.inl e, s') →
      ∃ a, s.appointments.find? (fun b => b.id == aid) = some a ∧ today = a.date) := by
  constructor
  · intro a hfind hpat hdate
    unfold checkIn
    simp only [hfind]
    rw [if_neg (by simp [hpat]), if_pos hdate]
  · intro e s' h
    unfold checkIn at h
    cases hf : s.appointments.find? (fun b => b.id == aid) with
    | none =>
        simp only [hf] at h
        exact absurd h (by simp)
    | some a =>
        simp only [hf] at h
        refine ⟨a, rfl, ?_⟩
        by_cases h1 : a.patient_id ≠ pid
        · rw [if_pos h1] at h
          exact absurd h (by simp)
        · rw [if_neg h1] at h
          by_cases h2 : today ≠ a.date
          · rw [if_pos h2] at h
            exact absurd h (by simp)
          · exact not_ne_iff.mp h2

/-- Witness for C6: checking in tomorrow's appointment (date 4) today (date 3)
fails with `WrongDate`. -/
theorem C6_wrong_date_witness :
    checkIn
        { defaultCapacity := 10, availabilities := [], capacities := [],
          appointments := [{ id := 7, patient_id := 1, doctor_id := 2, date := 4, slot := 1,
                             status := AppointmentStatus.booked, idempotency_key := none }],
          queueEntries := [], nextId := 8 } 7 1 3 =
      (Sum.inr CheckInError.WrongDate,
        { defaultCapacity := 10, availabilities := [], capacities := [],
          appointments := [{ id := 7, patient_id := 1, doctor_id := 2, date := 4, slot := 1,
                             status := AppointmentStatus.booked, idempotency_key := none }],
          queueEntries := [], nextId := 8 }) :=
  (C6_wrong_date _ 7 1 3).1
    { id := 7, patient_id := 1, doctor_id := 2, date := 4, slot := 1,
      status := AppointmentStatus.booked, idempotency_key := none }
    (by decide) (by decide) (by decide)

/-! ### C8: availability check with default-allow -/

/-- C8: a booking against an explicit `is_present = false` availability record
fails with `DoctorUnavailable` (and changes nothing), while a booking with no
availability record for the (doctor, date) behaves exactly as if an explicit
`is_present = true` record existed: same result, same appointments, same
capacity rows (default-allow policy). -/
theorem C8_default_allow (s : SystemState) (p D T : Nat) :
    (∀ av, findAvailability s.availabilities D T = some av → av.is_present = false →
      book s p D T none = (Sum.inr BookError.DoctorUnavailable, s)) ∧
    (findAvailability s.availabilities D T = none →
      (book s p D T none).1 =
        (book { s with availabilities := ⟨D, T, true⟩ :: s.availabilities } p D T none).1 ∧
      (book s p D T none).2.appointments =
        (book { s with availabilities := ⟨D, T, true⟩ :: s.availabilities } p D T none).2.appointments ∧
      (book s p D T none).2.capacities =
        (book { s with availabilities := ⟨D, T, true⟩ :: s.availabilities } p D T none).2.capacities) := by
  constructor
  · intro av hfind hfalse
    show bookFresh s p D T none = (Sum.inr BookError.DoctorUnavailable, s)
    unfold bookFresh availableFor
    simp only [hfind, hfalse]
    rfl
  · intro hnone
    have havail : availableFor s.availabilities D T = true := by
      unfold availableFor
      simp only [hnone]
    have havail' : availableFor (⟨D, T, true⟩ :: s.availabilities) D T = true := by
      unfold availableFor findAvailability
      simp [List.find?_cons]
    have hb : book s p D T none = bookFresh s p D T none := rfl
    have hb' : book { s with availabilities := ⟨D, T, true⟩ :: s.availabilities } p D T none
        = bookFresh { s with availabilities := ⟨D, T, true⟩ :: s.availabilities } p D T none := rfl
    rw [hb, hb']
    unfold bookFresh
    rw [show ({ s with availabilities := ⟨D, T, true⟩ :: s.availabilities }
          : SystemState).availabilities = ⟨D, T, true⟩ :: s.availabilities from rfl,
      havail, havail', if_pos rfl, if_pos rfl,
      show getLedger { s with availabilities := ⟨D, T, true⟩ :: s.availabilities } D T
        = getLedger s D T from rfl]
    cases hres : (getLedger s D T).tryReserve with
    | ok slot ledger' => exact ⟨rfl, rfl, rfl⟩
    | capacityExhausted => exact ⟨rfl, rfl, rfl⟩

/-- Witness for C8: with one doctor marked absent the booking is rejected, and
on the empty state the no-record booking matches the explicit-record booking. -/
theorem C8_default_allow_witness :
    book
        { defaultCapacity := 10, availabilities := [⟨2, 3, false⟩], capacities := [],
          appointments := [], queueEntries := [], nextId := 0 } 1 2 3 none =
      (Sum.inr BookError.DoctorUnavailable,
        { defaultCapacity := 10, availabilities := [⟨2, 3, false⟩], capacities := [],
          appointments := [], queueEntries := [], nextId := 0 }) ∧
    (book (initState 10) 1 2 3 none).1 =
      (book { initState 10 with availabilities := [⟨2, 3, true⟩] } 1 2 3 none).1 :=
  ⟨(C8_default_allow _ 1 2 3).1 ⟨2, 3, false⟩ (by decide) (by decide),
   ((C8_default_allow (initState 10) 1 2 3).2 (by decide)).1⟩

/-! ### C9: failed operations leave no partial state; optimistic rollback -/

/-- C9: every `book` or `checkIn` call that returns an error leaves the system
state exactly as it was (no partial writes), and the frontend card's
optimistic status is rolled back to the appointment's original status whenever
the check-in API call fails. -/
theorem C9_error_atomicity :
    (∀ (s : SystemState) (p D T : Nat) (key : Option Nat) (e : BookError) (s' : SystemState),
        book s p D T key = (Sum.inr e, s') → s' = s) ∧
    (∀ (s : SystemState) (aid pid today : Nat) (e : CheckInError) (s' : SystemState),
        checkIn s aid pid today = (Sum.inr e, s') → s' = s) ∧
    (∀ st : AppointmentStatus, handleCheckInStatus st false = st) := by
  refine ⟨?_, ?_, ?_⟩
  · have hfresh : ∀ (s : SystemState) (p D T : Nat) (key : Option Nat) (e : BookError)
        (s' : SystemState), bookFresh s p D T key = (Sum.inr e, s') → s' = s := by
      intro s p D T key e s' h
      unfold bookFresh at h
      by_cases hav : availableFor s.availabilities D T = true
      · rw [if_pos hav] at h
        cases hres : (getLedger s D T).tryReserve with
        | ok slot ledger' =>
            rw [hres] at h
            injection h with h1 h2
            exact absurd h1 (by simp)
        | capacityExhausted =>
            rw [hres] at h
            injection h with h1 h2
            exact h2.symm
      · rw [if_neg hav] at h
        injection h with h1 h2
        exact h2.symm
    intro s p D T key e s' h
    unfold book at h
    cases key with
    | none => exact hfresh s p D T none e s' h
    | some k =>
        cases hf : s.appointments.find? (fun a => a.idempotency_key == some k) with
        | none =>
            simp only [hf] at h
            exact hfresh s p D T (some k) e s' h
        | some a =>
            simp only [hf] at h
            exact absurd h (by simp)
  · intro s aid pid today e s' h
    unfold checkIn at h
    cases hf : s.appointments.find? (fun b => b.id == aid) with
    | none =>
        simp only [hf] at h
        injection h with h1 h2
        exact h2.symm
    | some a =>
        simp only [hf] at h
        by_cases h1 : a.patient_id ≠ pid
        · rw [if_pos h1] at h
          injection h with h1' h2'
          exact h2'.symm
        · rw [if_neg h1] at h
          by_cases h2 : today ≠ a.date
          · rw [if_pos h2] at h
            injection h with h1' h2'
            exact h2'.symm
          · rw [if_neg h2] at h
            by_cases h3 : a.status = AppointmentStatus.checked_in
                ∨ s.queueEntries.any (fun q => q.appointment_id == a.id) = true
            · rw [if_pos h3] at h
              injection h with h1' h2'
              exact h2'.symm
            · rw [if_neg h3] at h
              injection h with h1' h2'
              exact absurd h1' (by simp)
  · intro st
    cases st <;> rfl

/-- Witness for C9: a booking on a zero-capacity state fails with
`CapacityFull` and the state is returned unchanged. -/
theorem C9_error_atomicity_witness :
    initState 0 = initState 0 ∧ handleCheckInStatus AppointmentStatus.booked false
      = AppointmentStatus.booked :=
  ⟨C9_error_atomicity.1 (initState 0) 1 2 3 none BookError.CapacityFull (initState 0) (by decide),
   C9_error_atomicity.2.2 AppointmentStatus.booked⟩

/-! ### C10: reconnect backoff and attempt cap -/

/-- Upper bound on how many more reconnects can still be scheduled from a
hook state: a live socket can fail `max - attempts` more times; a dead socket
with a pending timeout first consumes the timeout (incrementing the counter);
a dead socket with nothing pending schedules nothing ever again. -/
def hookBudget (s : HookState) : Nat :=
  if s.live then maxReconnectAttempts - s.attempts
  else
    match s.scheduled with
    | some _ => maxReconnectAttempts - s.attempts - 1
    | none => 0

/-- Bound on the number of reconnects scheduled along any event sequence that
contains no successful open. -/
lemma collectDelays_length_le (es : List HookEvent) :
    ∀ s : HookState, HookEvent.opened ∉ es →
      (collectDelays s es).length ≤ hookBudget s := by
  induction es with
  | nil =>
      intro s _
      simp [collectDelays]
  | cons e es ih =>
      intro s hmem
      have he : e ≠ HookEvent.opened := fun h => hmem (h ▸ List.mem_cons_self e es)
      have hmem' : HookEvent.opened ∉ es := fun h => hmem (List.mem_cons_of_mem e h)
      cases e with
      | opened => exact absurd rfl he
      | timer =>
          rw [collectDelays]
          have hcond : ¬ (HookEvent.timer = HookEvent.closed ∧ s.live = true
              ∧ s.attempts < maxReconnectAttempts) := by
            rintro ⟨h, -, -⟩
            exact HookEvent.noConfusion h
          rw [if_neg hcond]
          simp only [List.nil_append]
          refine le_trans (ih _ hmem') ?_
          cases hs : s.scheduled with
          | some d =>
              have hstep : hookStep s HookEvent.timer =
                  { attempts := s.attempts + 1, status := ConnStatus.connecting, live := true,
                    scheduled := none } := by
                rw [hookStep, hs]
              rw [hstep]
              unfold hookBudget
              by_cases hl : s.live <;> simp [hl, hs] <;> omega
          | none =>
              have hstep : hookStep s HookEvent.timer = s := by
                rw [hookStep, hs]
              rw [hstep]
      | closed =>
          rw [collectDelays]
          by_cases hl : s.live = true
          · by_cases h5 : s.attempts < maxReconnectAttempts
            · rw [if_pos ⟨rfl, hl, h5⟩]
              have hstep : hookStep s HookEvent.closed =
                  { attempts := s.attempts, status := ConnStatus.disconnected, live := false,
                    scheduled := some (baseDelay * 2 ^ s.attempts) } := by
                rw [hookStep, if_pos hl, if_pos h5]
              have hb := ih (hookStep s HookEvent.closed) hmem'
              rw [hstep] at hb
              rw [hstep]
              unfold hookBudget at hb ⊢
              simp only [hl, if_true] at hb ⊢
              simp at hb
              simp only [List.length_append, List.length_singleton]
              omega
            · rw [if_neg (by rintro ⟨-, -, h⟩; exact h5 h)]
              have hstep : hookStep s HookEvent.closed =
                  { attempts := s.attempts, status := ConnStatus.error, live := false,
                    scheduled := none } := by
                rw [hookStep, if_pos hl, if_neg h5]
              rw [hstep]
              simp only [List.nil_append]
              refine le_trans (ih _ hmem') ?_
              unfold hookBudget
              simp
          · rw [if_neg (by rintro ⟨-, h, -⟩; exact hl h)]
            have hstep : hookStep s HookEvent.closed = s := by
              rw [hookStep, if_neg (by simpa using hl)]
            rw [hstep]
            simp only [List.nil_append]
            exact ih _ hmem'

/-- C10: the hook's reconnect logic.  (i) While the counter `n` is below
`maxReconnectAttempts = 5`, an unexpected close schedules a reconnect delayed
by exactly `baseDelay * 2 ^ n = 1000 * 2 ^ n` milliseconds and reports
`disconnected`; (ii) once the counter has reached 5, a close reports `error`
and schedules nothing; (iii) a successful open resets the counter to 0 and
reports `connected`; (iv) along any event sequence with no successful open,
at most 5 reconnects are ever scheduled; (v) on the maximal failing trace the
scheduled delays are exactly 1000, 2000, 4000, 8000, 16000 ms, after which the
status is `error`. -/
theorem C10_reconnect_backoff :
    (∀ s : HookState, s.live = true → s.attempts < maxReconnectAttempts →
      hookStep s HookEvent.closed =
        { attempts := s.attempts, status := ConnStatus.disconnected, live := false,
          scheduled := some (baseDelay * 2 ^ s.attempts) }) ∧
    (∀ s : HookState, s.live = true → maxReconnectAttempts ≤ s.attempts →
      hookStep s HookEvent.closed =
        { attempts := s.attempts, status := ConnStatus.error, live := false, scheduled := none }) ∧
    (∀ s : HookState, s.live = true →
      (hookStep s HookEvent.opened).attempts = 0 ∧
      (hookStep s HookEvent.opened).status = ConnStatus.connected) ∧
    (∀ es : List HookEvent, HookEvent.opened ∉ es →
      (collectDelays initHook es).length ≤ maxReconnectAttempts) ∧
    (collectDelays initHook
        [HookEvent.closed, HookEvent.timer, HookEvent.closed, HookEvent.timer,
         HookEvent.closed, HookEvent.timer, HookEvent.closed, HookEvent.timer,
         HookEvent.closed, HookEvent.timer, HookEvent.closed] =
        [1000, 2000, 4000, 8000, 16000] ∧
      (hookRun initHook
        [HookEvent.closed, HookEvent.timer, HookEvent.closed, HookEvent.timer,
         HookEvent.closed, HookEvent.timer, HookEvent.closed, HookEvent.timer,
         HookEvent.closed, HookEvent.timer, HookEvent.closed]).status = ConnStatus.error) := by
  refine ⟨?_, ?_, ?_, ?_, by decide, by decide⟩
  · intro s hl h5
    rw [hookStep, if_pos hl, if_pos h5]
  · intro s hl h5
    rw [hookStep, if_pos hl, if_neg (Nat.not_lt.mpr h5)]
  · intro s hl
    rw [hookStep, if_pos hl]
    exact ⟨rfl, rfl⟩
  · intro es hmem
    exact le_trans (collectDelays_length_le es initHook hmem) (by simp [hookBudget, initHook])

/-- Witness for C10: from the initial hook state, the first unexpected close
schedules a 1000 ms reconnect, and after an open the counter is 0. -/
theorem C10_reconnect_backoff_witness :
    hookStep initHook HookEvent.closed =
      { attempts := 0, status := ConnStatus.disconnected, live := false, scheduled := some 1000 } ∧
    (hookStep { initHook with attempts := 3 } HookEvent.opened).attempts = 0 ∧
    (collectDelays initHook [HookEvent.closed]).length ≤ maxReconnectAttempts :=
  ⟨C10_reconnect_backoff.1 initHook rfl (by decide),
   (C10_reconnect_backoff.2.2.1 _ rfl).1,
   C10_reconnect_backoff.2.2.2.1 [HookEvent.closed] (by decide)⟩

/-! ### C7: snapshot delivered first on subscribe -/

/-- One bus step only ever appends to a connection's outbox. -/
lemma busStep_outbox_mono (s : BusState) (e : WsEvent) (c : Nat) :
    ∃ t, (busStep s e).outbox c = s.outbox c ++ t := by
  cases e with
  | subscribe c' d =>
      by_cases hc : c = c'
      · subst hc
        exact ⟨[WsMsg.snapshot d (s.version d)], by simp [busStep]⟩
      · exact ⟨[], by simp [busStep, hc]⟩
  | unsubscribe c' => exact ⟨[], by simp [busStep]⟩
  | publish d =>
      by_cases hc : (c, d) ∈ s.registry
      · exact ⟨[WsMsg.update d (if d = d then s.version d + 1 else s.version d)],
          by simp [busStep, hc]⟩
      · exact ⟨[], by simp [busStep, hc]⟩

/-- A bus run only ever appends to a connection's outbox. -/
lemma busRun_outbox_mono (es : List WsEvent) :
    ∀ (s : BusState) (c : Nat), ∃ t, (busRun s es).outbox c = s.outbox c ++ t := by
  induction es with
  | nil => exact fun s c => ⟨[], by simp [busRun]⟩
  | cons e es ih =>
      intro s c
      obtain ⟨t1, h1⟩ := busStep_outbox_mono s e c
      obtain ⟨t2, h2⟩ := ih (busStep s e) c
      exact ⟨t1 ++ t2, by rw [busRun, List.foldl_cons, ← busRun, h2, h1, List.append_assoc]⟩

/-- C7: whenever a connection subscribes to a date, the very next message it
receives is a single snapshot carrying the state version of that date at the
moment of the subscribe (the current state), and every later message — in
particular every update for that date — comes after it in the connection's
delivery order. -/
theorem C7_snapshot_before_update (pre post : List WsEvent) (c T : Nat) :
    ∃ rest,
      (busRun initBus (pre ++ WsEvent.subscribe c T :: post)).outbox c =
        (busRun initBus pre).outbox c
          ++ WsMsg.snapshot T ((busRun initBus pre).version T) :: rest := by
  rw [show pre ++ WsEvent.subscribe c T :: post
        = (pre ++ [WsEvent.subscribe c T]) ++ post by simp]
  unfold busRun
  rw [List.foldl_append, List.foldl_append]
  obtain ⟨t, ht⟩ := busRun_outbox_mono post
    (List.foldl busStep (List.foldl busStep initBus pre) [WsEvent.subscribe c T]) c
  unfold busRun at ht
  rw [ht]
  rw [show List.foldl busStep (List.foldl busStep initBus pre) [WsEvent.subscribe c T]
        = busStep (List.foldl busStep initBus pre) (WsEvent.subscribe c T) from rfl]
  refine ⟨t, ?_⟩
  rw [show (busStep (List.foldl busStep initBus pre) (WsEvent.subscribe c T)).outbox c
        = (List.foldl busStep initBus pre).outbox c
            ++ [WsMsg.snapshot T ((List.foldl busStep initBus pre).version T)] by
      simp [busStep]]
  simp

/-! ### C2: idempotent retry of book -/

/-- Successful fresh `tryReserve` decrements `remaining` by exactly one. -/
lemma tryReserve_ok_remaining (l : CapacityLedger) (slot : Nat) (l' : CapacityLedger)
    (h : l.tryReserve = ReserveResult.ok slot l') :
    l'.remaining + 1 = l.remaining := by
  unfold CapacityLedger.tryReserve at h
  split at h
  · rename_i hpos
    injection h with h1 h2
    subst h2
    show l.remaining - 1 + 1 = l.remaining
    omega
  · exact absurd h (by simp)

/-- C2: if no appointment with idempotency key `k` exists yet and a first
`book` call with key `k` succeeds, then a second `book` call with the same
key (same patient, doctor, date) returns exactly the same appointment with
the state unchanged, and across the two calls the (doctor, date) capacity has
been decremented exactly once. -/
theorem C2_idempotent_booking (s : SystemState) (P D T k : Nat) (a : Appointment)
    (s1 : SystemState)
    (hfresh : s.appointments.find? (fun b => b.idempotency_key == some k) = none)
    (h1 : book s P D T (some k) = (Sum.inl a, s1)) :
    book s1 P D T (some k) = (Sum.inl a, s1) ∧
      (getLedger s1 D T).remaining + 1 = (getLedger s D T).remaining := by
  unfold book at h1
  simp only [hfresh] at h1
  unfold bookFresh at h1
  by_cases hav : availableFor s.availabilities D T = true
  · rw [if_pos hav] at h1
    cases hres : (getLedger s D T).tryReserve with
    | capacityExhausted =>
        rw [hres] at h1
        injection h1 with h1a h1b
        exact absurd h1a (by simp)
    | ok slot ledger' =>
        rw [hres] at h1
        injection h1 with h1a h1b
        injection h1a with h1a
        constructor
        · have happs : s1.appointments = s.appointments ++ [a] := by
            rw [← h1b, ← h1a]
          have hfind2 : s1.appointments.find? (fun b => b.idempotency_key == some k)
              = some a := by
            rw [happs, find?_append_of_none _ _ _ hfresh, ← h1a]
            simp [List.find?]
          unfold book
          simp only [hfind2]
        · have hget : getLedger s1 D T = ledger' :=
            getLedger_setLedger s1 D T ledger' s.capacities (by rw [← h1b])
          rw [hget, tryReserve_ok_remaining _ _ _ hres]
  · rw [if_neg hav] at h1
    injection h1 with h1a h1b
    exact absurd h1a (by simp)

/-- Witness for C2: a fresh key on the empty capacity-10 state; the second
call returns the first call's appointment and one slot total is consumed. -/
theorem C2_idempotent_booking_witness :
    book
        { defaultCapacity := 10, availabilities := [], capacities := [((2, 3), ⟨10, 9⟩)],
          appointments := [{ id := 0, patient_id := 1, doctor_id := 2, date := 3, slot := 1,
                             status := AppointmentStatus.booked, idempotency_key := some 5 }],
          queueEntries := [], nextId := 1 } 1 2 3 (some 5) =
      (Sum.inl { id := 0, patient_id := 1, doctor_id := 2, date := 3, slot := 1,
                 status := AppointmentStatus.booked, idempotency_key := some 5 },
        { defaultCapacity := 10, availabilities := [], capacities := [((2, 3), ⟨10, 9⟩)],
          appointments := [{ id := 0, patient_id := 1, doctor_id := 2, date := 3, slot := 1,
                             status := AppointmentStatus.booked, idempotency_key := some 5 }],
          queueEntries := [], nextId := 1 }) ∧
      (getLedger
        { defaultCapacity := 10, availabilities := [], capacities := [((2, 3), ⟨10, 9⟩)],
          appointments := [{ id := 0, patient_id := 1, doctor_id := 2, date := 3, slot := 1,
                             status := AppointmentStatus.booked, idempotency_key := some 5 }],
          queueEntries := [], nextId := 1 } 2 3).remaining + 1 =
      (getLedger (initState 10) 2 3).remaining :=
  C2_idempotent_booking (initState 10) 1 2 3 5
    { id := 0, patient_id := 1, doctor_id := 2, date := 3, slot := 1,
      status := AppointmentStatus.booked, idempotency_key := some 5 }
    { defaultCapacity := 10, availabilities := [], capacities := [((2, 3), ⟨10, 9⟩)],
      appointments := [{ id := 0, patient_id := 1, doctor_id := 2, date := 3, slot := 1,
                         status := AppointmentStatus.booked, idempotency_key := some 5 }],
      queueEntries := [], nextId := 1 }
    (by decide) (by decide)

/-! ### C1: capacity enforcement under concurrent booking -/

/-- One keyless `book` on the canonical single-doctor state with zero
remaining capacity fails and changes nothing. -/
lemma book_step_zero (D T c n p : Nat) (apps : List Appointment) (qs : List QueueEntry) :
    book { defaultCapacity := c, availabilities := [], capacities := [((D, T), ⟨c, 0⟩)],
           appointments := apps, queueEntries := qs, nextId := n } p D T none =
      (Sum.inr BookError.CapacityFull,
       { defaultCapacity := c, availabilities := [], capacities := [((D, T), ⟨c, 0⟩)],
         appointments := apps, queueEntries := qs, nextId := n }) := by
  simp [book, bookFresh, availableFor, findAvailability, getLedger,
    CapacityLedger.tryReserve, List.find?]

/-- One keyless `book` on the canonical single-doctor state with `r' + 1`
remaining slots succeeds, is assigned slot `c - r'`, and decrements the row. -/
lemma book_step_succ (D T c r' n p : Nat) (apps : List Appointment) (qs : List QueueEntry) :
    book { defaultCapacity := c, availabilities := [], capacities := [((D, T), ⟨c, r' + 1⟩)],
           appointments := apps, queueEntries := qs, nextId := n } p D T none =
      (Sum.inl { id := n, patient_id := p, doctor_id := D, date := T, slot := c - r',
                 status := AppointmentStatus.booked, idempotency_key := none },
       { defaultCapacity := c, availabilities := [], capacities := [((D, T), ⟨c, r'⟩)],
         appointments := apps ++
           [{ id := n, patient_id := p, doctor_id := D, date := T, slot := c - r',
              status := AppointmentStatus.booked, idempotency_key := none }],
         queueEntries := qs, nextId := n + 1 }) := by
  simp [book, bookFresh, availableFor, findAvailability, getLedger,
    CapacityLedger.tryReserve, setLedger, List.find?]

/-- Success slots of a run whose results are successes followed by failures. -/
lemma successSlots_shape (news : List Appointment) (m : Nat) :
    successSlots (news.map Sum.inl ++ List.replicate m (Sum.inr BookError.CapacityFull))
      = news.map (fun a => a.slot) := by
  have hrep : ∀ m', successSlots (List.replicate m' (Sum.inr BookError.CapacityFull)) = [] := by
    intro m'
    induction m' with
    | zero => rfl
    | succ m' ih => simpa [successSlots, List.replicate_succ, List.filterMap_cons] using ih
  induction news with
  | nil => simpa using hrep m
  | cons a news ih => simpa [successSlots, List.filterMap_cons] using ih

/-- Failures of a run whose results are successes followed by failures. -/
lemma failuresOf_shape (news : List Appointment) (m : Nat) :
    failuresOf (news.map Sum.inl ++ List.replicate m (Sum.inr BookError.CapacityFull))
      = List.replicate m BookError.CapacityFull := by
  have hrep : ∀ m', failuresOf (List.replicate m' (Sum.inr BookError.CapacityFull))
      = List.replicate m' BookError.CapacityFull := by
    intro m'
    induction m' with
    | zero => rfl
    | succ m' ih => simpa [failuresOf, List.replicate_succ, List.filterMap_cons] using ih
  induction news with
  | nil => simpa using hrep m
  | cons a news ih => simpa [failuresOf, List.filterMap_cons] using ih

/-- Main run lemma for C1: keyless `book` calls against the canonical
single-(doctor, date) state with `r ≤ c` remaining grant the first
`min |ps| r` requests the slots `c - r + 1, ..., c - r + min |ps| r` in
order, reject all others with `CapacityFull`, and leave the row at
`r - |ps|` remaining. -/
lemma bookAll_spec (D T c : Nat) (ps : List Nat) :
    ∀ (r n : Nat) (apps : List Appointment) (qs : List QueueEntry), r ≤ c →
      ∃ news : List Appointment,
        bookAll { defaultCapacity := c, availabilities := [],
                  capacities := [((D, T), ⟨c, r⟩)], appointments := apps,
                  queueEntries := qs, nextId := n } D T ps =
          (news.map Sum.inl
             ++ List.replicate (ps.length - min ps.length r) (Sum.inr BookError.CapacityFull),
           { defaultCapacity := c, availabilities := [],
             capacities := [((D, T), ⟨c, r - ps.length⟩)], appointments := apps ++ news,
             queueEntries := qs, nextId := n + min ps.length r }) ∧
        news.map (fun a => a.slot) = List.range' (c - r + 1) (min ps.length r) ∧
        news.map (fun a => (a.doctor_id, a.date, a.status))
          = List.replicate (min ps.length r) (D, T, AppointmentStatus.booked) := by
  induction ps with
  | nil =>
      intro r n apps qs hr
      exact ⟨[], by simp [bookAll], by simp, by simp⟩
  | cons p rest ih =>
      intro r n apps qs hr
      cases r with
      | zero =>
          obtain ⟨news, hrun, hslots, hmeta⟩ := ih 0 n apps qs (Nat.zero_le c)
          have hnil : news = [] := by
            rw [show min rest.length 0 = 0 from Nat.min_zero rest.length] at hslots
            exact List.map_eq_nil_iff.mp hslots
          subst hnil
          simp only [List.map_nil, List.nil_append, Nat.min_zero, Nat.sub_zero,
            Nat.add_zero, List.append_nil] at hrun
          refine ⟨[], ?_, by simp, by simp⟩
          rw [bookAll]
          simp only [book_step_zero]
          rw [hrun]
          simp [List.replicate_succ]
      | succ r' =>
          have hr' : r' ≤ c := le_trans (Nat.le_succ r') hr
          obtain ⟨news, hrun, hslots, hmeta⟩ :=
            ih r' (n + 1)
              (apps ++ [{ id := n, patient_id := p, doctor_id := D, date := T, slot := c - r',
                          status := AppointmentStatus.booked, idempotency_key := none }]) qs hr'
          refine ⟨{ id := n, patient_id := p, doctor_id := D, date := T, slot := c - r',
                    status := AppointmentStatus.booked, idempotency_key := none } :: news,
                  ?_, ?_, ?_⟩
          · rw [bookAll]
            simp only [book_step_succ]
            rw [hrun]
            have e1 : (p :: rest).length - min (p :: rest).length (r' + 1)
                = rest.length - min rest.length r' := by
              simp only [List.length_cons]
              omega
            have e2 : (r' + 1) - (p :: rest).length = r' - rest.length := by
              simp only [List.length_cons]
              omega
            have e3 : n + min (p :: rest).length (r' + 1) = n + 1 + min rest.length r' := by
              simp only [List.length_cons]
              omega
            rw [e1, e2, e3]
            simp [List.append_assoc]
          · rw [List.map_cons, hslots]
            have e4 : min (p :: rest).length (r' + 1) = min rest.length r' + 1 := by
              simp only [List.length_cons]
              omega
            have e5 : c - (r' + 1) + 1 = c - r' := by omega
            rw [e4, e5, List.range'_succ]
          · rw [List.map_cons, hmeta]
            have e6 : min (p :: rest).length (r' + 1) = min rest.length r' + 1 := by
              simp only [List.length_cons]
              omega
            rw [e6, List.replicate_succ]

/-- A keyless `book` on the empty zero-capacity state fails and changes nothing. -/
lemma book_initState_zero (D T p : Nat) :
    book (initState 0) p D T none = (Sum.inr BookError.CapacityFull, initState 0) := by
  simp [book, bookFresh, availableFor, findAvailability, getLedger,
    CapacityLedger.tryReserve, initState, List.find?]

/-- Every keyless booking run on the zero-capacity empty state rejects everything. -/
lemma bookAll_initState_zero (D T : Nat) (ps : List Nat) :
    bookAll (initState 0) D T ps
      = (List.replicate ps.length (Sum.inr BookError.CapacityFull), initState 0) := by
  induction ps with
  | nil => simp [bookAll]
  | cons p rest ih =>
      rw [bookAll]
      simp only [book_initState_zero]
      rw [ih]
      simp [List.replicate_succ]

/-- The first keyless `book` on the empty state with positive capacity lazily
creates the (doctor, date) capacity row and grants the first slot. -/
lemma book_initState_succ (D T c' p : Nat) :
    book (initState (c' + 1)) p D T none =
      (Sum.inl { id := 0, patient_id := p, doctor_id := D, date := T, slot := c' + 1 - c',
                 status := AppointmentStatus.booked, idempotency_key := none },
       { defaultCapacity := c' + 1, availabilities := [],
         capacities := [((D, T), ⟨c' + 1, c'⟩)],
         appointments := [{ id := 0, patient_id := p, doctor_id := D, date := T,
                            slot := c' + 1 - c', status := AppointmentStatus.booked,
                            idempotency_key := none }],
         queueEntries := [], nextId := 1 }) := by
  simp [book, bookFresh, availableFor, findAvailability, getLedger,
    CapacityLedger.tryReserve, setLedger, initState, List.find?]

/-- The first keyless `book` on the empty capacity-10 state grants slot 1. -/
lemma book_initState_ten (D T p : Nat) :
    book (initState 10) p D T none =
      (Sum.inl { id := 0, patient_id := p, doctor_id := D, date := T, slot := 1,
                 status := AppointmentStatus.booked, idempotency_key := none },
       { defaultCapacity := 10, availabilities := [],
         capacities := [((D, T), ⟨10, 9⟩)],
         appointments := [{ id := 0, patient_id := p, doctor_id := D, date := T,
                            slot := 1, status := AppointmentStatus.booked,
                            idempotency_key := none }],
         queueEntries := [], nextId := 1 }) := by
  simp [book, bookFresh, availableFor, findAvailability, getLedger,
    CapacityLedger.tryReserve, setLedger, initState, List.find?]

/-- Success slots of a run starting with a success. -/
lemma successSlots_cons_inl (a : Appointment) (l : List (Appointment ⊕ BookError)) :
    successSlots (Sum.inl a :: l) = a.slot :: successSlots l := by
  simp [successSlots, List.filterMap_cons]

/-- Failures of a run starting with a success. -/
lemma failuresOf_cons_inl (a : Appointment) (l : List (Appointment ⊕ BookError)) :
    failuresOf (Sum.inl a :: l) = failuresOf l := by
  simp [failuresOf, List.filterMap_cons]

/-- Appointments that are all (D, T, booked) all pass the non-cancelled filter. -/
lemma count_booked (news : List Appointment) (D T m : Nat)
    (hmeta : news.map (fun a => (a.doctor_id, a.date, a.status))
      = List.replicate m (D, T, AppointmentStatus.booked)) :
    (news.filter (fun a => a.doctor_id == D && a.date == T
        && !(decide (a.status = AppointmentStatus.cancelled)))).length = news.length := by
  rw [List.filter_eq_self.mpr]
  intro a ha
  have h1 : (a.doctor_id, a.date, a.status)
      ∈ List.replicate m (D, T, AppointmentStatus.booked) := by
    rw [← hmeta]
    exact List.mem_map_of_mem _ ha
  have h2 := List.eq_of_mem_replicate h1
  injection h2 with hd h2'
  injection h2' with ht hs
  simp [hd, ht, hs]

/-- C1: booking is capacity-safe.  (i) For every doctor `D` and date `T` with
capacity 10, a run of 30 keyless `book` calls for (D, T) — every concurrent
execution is a sequential interleaving of the atomic reservations, so the run
covers any order of the callers — grants exactly 10 of them the pairwise
distinct slots 1..10 and rejects the other 20 with the capacity error
(`CapacityFull`, the booking surface of the ledger's `CapacityExhausted`);
(ii) in general, for every capacity `c` and every run, at most `c`
non-cancelled appointments for (D, T) ever exist; (iii) the ledger itself
rejects with `CapacityExhausted` exactly when nothing remains. -/
theorem C1_capacity_enforcement :
    (∀ (D T : Nat) (ps : List Nat), ps.length = 30 →
      successSlots (bookAll (initState 10) D T ps).1 = List.range' 1 10 ∧
      (successSlots (bookAll (initState 10) D T ps).1).Nodup ∧
      (successSlots (bookAll (initState 10) D T ps).1).length = 10 ∧
      failuresOf (bookAll (initState 10) D T ps).1 = List.replicate 20 BookError.CapacityFull ∧
      (failuresOf (bookAll (initState 10) D T ps).1).length = 20) ∧
    (∀ (c D T : Nat) (ps : List Nat),
      nonCancelledCount (bookAll (initState c) D T ps).2 D T ≤ c) ∧
    (∀ l : CapacityLedger, l.remaining = 0 →
      l.tryReserve = ReserveResult.capacityExhausted) := by
  refine ⟨?_, ?_, ?_⟩
  · intro D T ps hlen
    cases ps with
    | nil => simp at hlen
    | cons p rest =>
        have hrest : rest.length = 29 := by simpa using hlen
        obtain ⟨news, hrun, hslots, hmeta⟩ := bookAll_spec D T 10 rest 9 1
          [{ id := 0, patient_id := p, doctor_id := D, date := T, slot := 1,
             status := AppointmentStatus.booked, idempotency_key := none }] [] (by omega)
        rw [hrest] at hrun hslots
        have hS : successSlots (bookAll (initState 10) D T (p :: rest)).1
            = List.range' 1 10 := by
          rw [bookAll]
          simp only [book_initState_ten]
          rw [hrun]
          show successSlots (Sum.inl _ :: _) = _
          rw [successSlots_cons_inl, successSlots_shape, hslots]
          show (1 : Nat) :: List.range' (10 - 9 + 1) (min 29 9) = List.range' 1 10
          decide
        have hF : failuresOf (bookAll (initState 10) D T (p :: rest)).1
            = List.replicate 20 BookError.CapacityFull := by
          rw [bookAll]
          simp only [book_initState_ten]
          rw [hrun]
          show failuresOf (Sum.inl _ :: _) = _
          rw [failuresOf_cons_inl, failuresOf_shape]
          decide
        exact ⟨hS, by rw [hS]; decide, by rw [hS]; decide, hF, by rw [hF]; decide⟩
  · intro c D T ps
    cases ps with
    | nil => simp [bookAll, nonCancelledCount, initState]
    | cons p rest =>
        cases c with
        | zero =>
            have h0 := bookAll_initState_zero D T (p :: rest)
            rw [h0]
            simp [nonCancelledCount, initState]
        | succ c' =>
            obtain ⟨news, hrun, hslots, hmeta⟩ := bookAll_spec D T (c' + 1) rest c' 1
              [{ id := 0, patient_id := p, doctor_id := D, date := T, slot := c' + 1 - c',
                 status := AppointmentStatus.booked, idempotency_key := none }] []
              (Nat.le_succ c')
            have hlen : news.length = min rest.length c' := by
              have hml := congrArg List.length hmeta
              simpa using hml
            have hcount := count_booked news D T (min rest.length c') hmeta
            rw [bookAll]
            simp only [book_initState_succ]
            rw [hrun]
            simp only [nonCancelledCount, List.filter_append, List.length_append]
            rw [hcount]
            simp [List.filter]
            omega
  · intro l h
    unfold CapacityLedger.tryReserve
    rw [h]
    simp

/-- Witness for C1: the 30 concurrent callers instantiated as patients 0..29
booking with doctor 0 on date 0. -/
theorem C1_capacity_enforcement_witness :
    successSlots (bookAll (initState 10) 0 0 (List.range 30)).1 = List.range' 1 10 ∧
    (successSlots (bookAll (initState 10) 0 0 (List.range 30)).1).Nodup ∧
    (successSlots (bookAll (initState 10) 0 0 (List.range 30)).1).length = 10 ∧
    failuresOf (bookAll (initState 10) 0 0 (List.range 30)).1
      = List.replicate 20 BookError.CapacityFull ∧
    (failuresOf (bookAll (initState 10) 0 0 (List.range 30)).1).length = 20 :=
  C1_capacity_enforcement.1 0 0 (List.range 30) (by decide)

/-! ### C4: queue position density and order -/

/-- Lookup by id returns the member itself when ids are duplicate-free. -/
lemma find?_id_of_nodup (apps : List Appointment) (a : Appointment)
    (hnd : (apps.map (fun b => b.id)).Nodup) (ha : a ∈ apps) :
    apps.find? (fun b => b.id == a.id) = some a := by
  induction apps with
  | nil => cases ha
  | cons b rest ih =>
      rw [List.map_cons, List.nodup_cons] at hnd
      rw [List.find?_cons]
      rcases List.mem_cons.mp ha with h | h
      · subst h
        simp
      · have hb : b.id ≠ a.id := by
          intro he
          exact hnd.1 (he ▸ List.mem_map_of_mem (fun b => b.id) h)
        rw [show (b.id == a.id) = false from by simp [hb]]
        exact ih hnd.2 h

/-- Flipping one appointment's status to checked_in does not change the id list. -/
lemma map_id_flip (apps : List Appointment) (i : Nat) :
    ((apps.map (fun b => if b.id = i
        then { b with status := AppointmentStatus.checked_in } else b)).map (fun b => b.id))
      = apps.map (fun b => b.id) := by
  induction apps with
  | nil => rfl
  | cons b rest ih =>
      simp only [List.map_cons, ih]
      congr 1
      split <;> rfl

/-- An appointment with a different id survives the status flip unchanged. -/
lemma mem_map_flip (apps : List Appointment) (b : Appointment) (i : Nat)
    (hb : b ∈ apps) (hne : b.id ≠ i) :
    b ∈ apps.map (fun b => if b.id = i
      then { b with status := AppointmentStatus.checked_in } else b) := by
  have hfix : (if b.id = i then { b with status := AppointmentStatus.checked_in } else b) = b :=
    if_neg hne
  rw [← hfix]
  exact List.mem_map_of_mem _ hb

/-- Folding max over positions with a nonzero seed. -/
lemma foldr_max_init (l : List QueueEntry) (m : Nat) :
    l.foldr (fun q acc => max q.position acc) m
      = max (l.foldr (fun q acc => max q.position acc) 0) m := by
  induction l with
  | nil => simp
  | cons q rest ih => simp [ih, Nat.max_assoc]

/-- Appending one entry for (d, t) to the queue takes the max with its position. -/
lemma maxPosition_append_entry (qs : List QueueEntry) (e : QueueEntry) (d t : Nat)
    (hd : e.doctor_id = d) (ht : e.date = t) :
    maxPosition (qs ++ [e]) d t = max (maxPosition qs d t) e.position := by
  unfold maxPosition
  rw [List.filter_append,
    show List.filter (fun q => q.doctor_id == d && q.date == t) [e] = [e] from by
      simp [List.filter, hd, ht],
    List.foldr_append]
  rw [show List.foldr (fun q acc => max q.position acc) 0 [e] = max e.position 0 from rfl]
  rw [foldr_max_init]
  simp [Nat.max_comm]

/-- Every queued position for (d, t) is bounded by the running maximum. -/
lemma position_le_maxPosition (qs : List QueueEntry) (q : QueueEntry) (d t : Nat)
    (hq : q ∈ qs) (hd : q.doctor_id = d) (ht : q.date = t) :
    q.position ≤ maxPosition qs d t := by
  have hmem : q ∈ qs.filter (fun q => q.doctor_id == d && q.date == t) :=
    List.mem_filter.mpr ⟨hq, by simp [hd, ht]⟩
  unfold maxPosition
  generalize qs.filter (fun q => q.doctor_id == d && q.date == t) = l at hmem
  induction l with
  | nil => cases hmem
  | cons b rest ih =>
      rcases List.mem_cons.mp hmem with h | h
      · subst h
        exact Nat.le_max_left _ _
      · exact le_trans (ih h) (Nat.le_max_right _ _)

/-- A valid check-in (found, matching patient, right date, booked, not yet
queued) appends exactly one entry at `maxPosition + 1` and flips the status. -/
lemma checkIn_step (s : SystemState) (a : Appointment)
    (hfind : s.appointments.find? (fun b => b.id == a.id) = some a)
    (hst : a.status = AppointmentStatus.booked)
    (hq : s.queueEntries.any (fun q => q.appointment_id == a.id) = false) :
    checkIn s a.id a.patient_id a.date =
      (Sum.inl { appointment_id := a.id, doctor_id := a.doctor_id, date := a.date,
                 position := maxPosition s.queueEntries a.doctor_id a.date + 1,
                 status := QueueStatus.waiting },
       { s with
           queueEntries := s.queueEntries ++
             [{ appointment_id := a.id, doctor_id := a.doctor_id, date := a.date,
                position := maxPosition s.queueEntries a.doctor_id a.date + 1,
                status := QueueStatus.waiting }],
           appointments := s.appointments.map (fun b => if b.id = a.id
             then { b with status := AppointmentStatus.checked_in } else b) }) := by
  unfold checkIn
  simp only [hfind]
  rw [if_neg (by simp), if_neg (by simp)]
  rw [if_neg (by simp [hst, hq])]
  rfl

/-- Main run lemma for C4: sequentially checking in a list of distinct booked
appointments of (D, T), none of them queued yet, appends one entry per call
with the positions `k + 1, ..., k + N` in call order on top of the current
maximum `k`, and every call succeeds. -/
lemma checkInAll_spec (D T : Nat) (calls : List Appointment) :
    ∀ (apps : List Appointment) (qs : List QueueEntry) (c n : Nat)
      (avs : List Availability) (cs : List ((Nat × Nat) × CapacityLedger)) (k : Nat),
      (apps.map (fun b => b.id)).Nodup →
      (calls.map (fun b => b.id)).Nodup →
      (∀ a ∈ calls, a ∈ apps ∧ a.doctor_id = D ∧ a.date = T
        ∧ a.status = AppointmentStatus.booked) →
      (∀ a ∈ calls, ∀ q ∈ qs, q.appointment_id ≠ a.id) →
      maxPosition qs D T = k →
      ∃ (entries : List QueueEntry) (apps' : List Appointment),
        checkInAll { defaultCapacity := c, availabilities := avs, capacities := cs,
                     appointments := apps, queueEntries := qs, nextId := n } T
            (calls.map (fun a => (a.id, a.patient_id))) =
          (entries.map Sum.inl,
           { defaultCapacity := c, availabilities := avs, capacities := cs,
             appointments := apps', queueEntries := qs ++ entries, nextId := n }) ∧
        entries.map (fun e => e.position) = List.range' (k + 1) calls.length ∧
        entries.map (fun e => e.appointment_id) = calls.map (fun a => a.id) ∧
        entries.map (fun e => (e.doctor_id, e.date, e.status))
          = List.replicate calls.length (D, T, QueueStatus.waiting) := by
  induction calls with
  | nil =>
      intro apps qs c n avs cs k _ _ _ _ _
      exact ⟨[], apps, by simp [checkInAll], by simp, by simp, by simp⟩
  | cons a rest ih =>
      intro apps qs c n avs cs k hndapps hndcalls hcalls hdisj hk
      obtain ⟨hmem, hdoc, hdate, hst⟩ := hcalls a (List.mem_cons_self a rest)
      rw [List.map_cons, List.nodup_cons] at hndcalls
      have hfind := find?_id_of_nodup apps a hndapps hmem
      have hany : qs.any (fun q => q.appointment_id == a.id) = false := by
        rw [List.any_eq_false]
        intro q hqmem
        simp only [beq_iff_eq]
        exact hdisj a (List.mem_cons_self a rest) q hqmem
      have hstep := checkIn_step
        { defaultCapacity := c, availabilities := avs, capacities := cs,
          appointments := apps, queueEntries := qs, nextId := n } a hfind hst hany
      rw [hdoc, hdate, hk] at hstep
      obtain ⟨entries', apps', hrun, hpos, hids, hmeta⟩ :=
        ih (apps.map (fun b => if b.id = a.id
              then { b with status := AppointmentStatus.checked_in } else b))
          (qs ++ [{ appointment_id := a.id, doctor_id := D, date := T,
                    position := k + 1, status := QueueStatus.waiting }])
          c n avs cs (k + 1)
          (by rw [map_id_flip]; exact hndapps)
          hndcalls.2
          (by
            intro b hb
            obtain ⟨hbmem, hbdoc, hbdate, hbst⟩ := hcalls b (List.mem_cons_of_mem a hb)
            have hbne : b.id ≠ a.id := by
              intro he
              exact hndcalls.1 (he ▸ List.mem_map_of_mem (fun b => b.id) hb)
            exact ⟨mem_map_flip apps b a.id hbmem hbne, hbdoc, hbdate, hbst⟩)
          (by
            intro b hb q hqmem
            rcases List.mem_append.mp hqmem with h | h
            · exact hdisj b (List.mem_cons_of_mem a hb) q h
            · have hbne : b.id ≠ a.id := by
                intro he
                exact hndcalls.1 (he ▸ List.mem_map_of_mem (fun b => b.id) hb)
              rw [List.mem_singleton.mp h]
              exact fun he => hbne (he.symm))
          (by
            rw [maxPosition_append_entry qs _ D T rfl rfl, hk]
            simp)
      refine ⟨{ appointment_id := a.id, doctor_id := D, date := T,
                position := k + 1, status := QueueStatus.waiting } :: entries', apps',
              ?_, ?_, ?_, ?_⟩
      · rw [List.map_cons, checkInAll]
        simp only [hstep]
        rw [hrun]
        simp [List.append_assoc]
      · rw [List.map_cons, hpos, List.length_cons]
        rw [show k + 1 + 1 = k + 2 from rfl]
        exact (List.range'_succ (k + 1) rest.length 1).symm
      · rw [List.map_cons, hids, List.map_cons]
      · rw [List.map_cons, hmeta, List.length_cons, List.replicate_succ]

/-- C4: for N sequential successful check-ins on N distinct booked
appointments of the same (doctor, date) starting from an empty queue, every
call succeeds and the assigned positions are exactly 1, ..., N with no gaps
or duplicates, in check-in call order (the i-th entry belongs to the i-th
call's appointment); and `QueueLedger.append` is `maxPosition + 1`, hence
1-based and strictly above every already-assigned position for that
(doctor, date). -/
theorem C4_queue_density :
    (∀ (D T c n : Nat) (avs : List Availability)
       (cs : List ((Nat × Nat) × CapacityLedger)) (apps calls : List Appointment),
      (apps.map (fun b => b.id)).Nodup →
      (calls.map (fun b => b.id)).Nodup →
      (∀ a ∈ calls, a ∈ apps ∧ a.doctor_id = D ∧ a.date = T
        ∧ a.status = AppointmentStatus.booked) →
      ∃ (entries : List QueueEntry) (apps' : List Appointment),
        checkInAll { defaultCapacity := c, availabilities := avs, capacities := cs,
                     appointments := apps, queueEntries := [], nextId := n } T
            (calls.map (fun a => (a.id, a.patient_id))) =
          (entries.map Sum.inl,
           { defaultCapacity := c, availabilities := avs, capacities := cs,
             appointments := apps', queueEntries := entries, nextId := n }) ∧
        entries.map (fun e => e.position) = List.range' 1 calls.length ∧
        (entries.map (fun e => e.position)).Nodup ∧
        entries.map (fun e => e.appointment_id) = calls.map (fun a => a.id) ∧
        entries.map (fun e => (e.doctor_id, e.date, e.status))
          = List.replicate calls.length (D, T, QueueStatus.waiting)) ∧
    (∀ (qs : List QueueEntry) (d t : Nat),
      QueueLedger.append qs d t = maxPosition qs d t + 1 ∧
      1 ≤ QueueLedger.append qs d t ∧
      ∀ q ∈ qs, q.doctor_id = d → q.date = t →
        q.position < QueueLedger.append qs d t) := by
  constructor
  · intro D T c n avs cs apps calls hndapps hndcalls hcalls
    obtain ⟨entries, apps', hrun, hpos, hids, hmeta⟩ :=
      checkInAll_spec D T calls apps [] c n avs cs 0 hndapps hndcalls hcalls
        (by intro a _ q hq; cases hq) rfl
    rw [List.nil_append] at hrun
    refine ⟨entries, apps', hrun, hpos, ?_, hids, hmeta⟩
    rw [hpos]
    exact List.nodup_range' 1 calls.length
  · intro qs d t
    refine ⟨rfl, Nat.succ_le_succ (Nat.zero_le _), ?_⟩
    intro q hq hd ht
    exact Nat.lt_succ_of_le (position_le_maxPosition qs q d t hq hd ht)

/-- Witness for C4: two booked appointments of doctor 2 on date 3 are checked
in in the order slot-2-first; the queue gets positions 1 and 2 in that order. -/
theorem C4_queue_density_witness :
    ∃ (entries : List QueueEntry) (apps' : List Appointment),
      checkInAll
          { defaultCapacity := 10, availabilities := [], capacities := [],
            appointments :=
              [{ id := 11, patient_id := 1, doctor_id := 2, date := 3, slot := 1,
                 status := AppointmentStatus.booked, idempotency_key := none },
               { id := 12, patient_id := 4, doctor_id := 2, date := 3, slot := 2,
                 status := AppointmentStatus.booked, idempotency_key := none }],
            queueEntries := [], nextId := 5 } 3
          (([{ id := 12, patient_id := 4, doctor_id := 2, date := 3, slot := 2,
               status := AppointmentStatus.booked, idempotency_key := none },
             { id := 11, patient_id := 1, doctor_id := 2, date := 3, slot := 1,
               status := AppointmentStatus.booked, idempotency_key := none }] :
            List Appointment).map (fun a => (a.id, a.patient_id))) =
        (entries.map Sum.inl,
         { defaultCapacity := 10, availabilities := [], capacities := [],
           appointments := apps', queueEntries := entries, nextId := 5 }) ∧
      entries.map (fun e => e.position) = List.range' 1 2 ∧
      (entries.map (fun e => e.position)).Nodup ∧
      entries.map (fun e => e.appointment_id) = [12, 11] ∧
      entries.map (fun e => (e.doctor_id, e.date, e.status))
        = List.replicate 2 (2, 3, QueueStatus.waiting) :=
  C4_queue_density.1 2 3 10 5 [] []
    [{ id := 11, patient_id := 1, doctor_id := 2, date := 3, slot := 1,
       status := AppointmentStatus.booked, idempotency_key := none },
     { id := 12, patient_id := 4, doctor_id := 2, date := 3, slot := 2,
       status := AppointmentStatus.booked, idempotency_key := none }]
    [{ id := 12, patient_id := 4, doctor_id := 2, date := 3, slot := 2,
       status := AppointmentStatus.booked, idempotency_key := none },
     { id := 11, patient_id := 1, doctor_id := 2, date := 3, slot := 1,
       status := AppointmentStatus.booked, idempotency_key := none }]
    (by decide) (by decide) (by decide)

end ClinicCore
